import Mathlib

/-!
Shallow embedding of the weather-alert pipeline
(`compute_indices.py`, `detect_alerts.py`, `fetch_openmeteo.py`).

Modelling conventions:
* Calendar dates are ordinal day numbers (`Nat`, days since an epoch, as in
  Python's `date.toordinal()`).  `parse_date` / `format_date` convert between
  `YYYY-MM-DD` strings and dates bijectively and `timedelta(days=1)` is `+ 1`,
  so the string layer is dropped.  ISO-string comparison on well-formed dates
  agrees with the ordinal order.
* Weather measurements (Python floats) are modelled as `ℚ`; severity levels
  (Python ints) as `ℤ`.
* A raw JSON metric that is missing, `null`, or non-numeric is modelled as
  `none`: `_safe_floats` treats all three identically (it skips them).
* Fallible code (`rows[0]` on an empty list) returns `Option`.
-/

namespace WeatherAlert

/-- The four hazard kinds of `HAZARDS` in `detect_alerts.py`. -/
inductive Hazard where
  | heat
  | cold
  | wind
  | rain
deriving DecidableEq, Repr

/-- A row of `regions_daily.json`: one aggregated, classified region-day
(produced by `compute_indices.main`, consumed by `detect_alerts`). -/
structure RegionDay where
  date : Nat
  country : String
  region_code : String
  region_id : String
  tmax_c : ℚ
  tmin_c : ℚ
  wind_max_kmh : ℚ
  rain_mm : ℚ
  heat_level : ℤ
  cold_level : ℤ
  wind_level : ℤ
  rain_level : ℤ
deriving DecidableEq, Repr

/-- A row of `daily_region_raw.json` (one city sample).  Each of the four
required metrics is `none` when the JSON value is absent / null / not a
number, which is exactly what `_safe_floats` skips. -/
structure RawObservation where
  date : Nat
  country : String
  region_id : String
  region_code : String
  city : String
  tmax_c : Option ℚ
  tmin_c : Option ℚ
  wind_max_kmh : Option ℚ
  rain_mm : Option ℚ
  snow_mm : Option ℚ
deriving DecidableEq, Repr

/-- One entry of the `HAZARDS` table (the `"field"` entry is determined by
the hazard name: `f"{hazard}_level"`, see `hazardLevel`). -/
structure HazardCfg where
  min_level : ℤ
  min_duration : Nat
deriving DecidableEq, Repr

/-- The `HAZARDS` configuration table of `detect_alerts.py`. -/
def HAZARDS : Hazard → HazardCfg
  | .heat => { min_level := 1, min_duration := 2 }
  | .cold => { min_level := 1, min_duration := 2 }
  | .wind => { min_level := 1, min_duration := 1 }
  | .rain => { min_level := 1, min_duration := 1 }

/-- `row[cfg["field"]]` and `row[f"{hazard}_level"]`: both resolve to the
hazard's severity-level field of a `RegionDay`. -/
def hazardLevel (hazard : Hazard) (r : RegionDay) : ℤ :=
  match hazard with
  | .heat => r.heat_level
  | .cold => r.cold_level
  | .wind => r.wind_level
  | .rain => r.rain_level

/-- An `AlertEvent` dict written to `alerts.json`.  The hazard-specific
peak entry (`"max_tmax_c"` / `"min_tmin_c"` / `"max_wind_max_kmh"` /
`"max_rain_mm"`) is modelled as the pair `value_field` / `value`. -/
structure AlertEvent where
  country : String
  region_code : String
  hazard : Hazard
  start_date : Nat
  end_date : Nat
  n_days : Nat
  max_level : ℤ
  value_field : String
  value : ℚ
deriving DecidableEq, Repr

/-- Python's builtin `max` on the non-empty collection `x :: xs`. -/
def pyMax {α : Type} [LinearOrder α] (x : α) (xs : List α) : α :=
  xs.foldl max x

/-- Python's builtin `min` on the non-empty collection `x :: xs`. -/
def pyMin {α : Type} [LinearOrder α] (x : α) (xs : List α) : α :=
  xs.foldl min x

/-- `summarise_run` of `detect_alerts.py`.  Python indexes `rows[0]` /
`rows[-1]`, raising on an empty list; the empty case returns `none`
(unreachable from the detector, whose shipped configs have
`min_duration ≥ 1`). -/
def summarise_run : List RegionDay → Hazard → Option AlertEvent
  | [], _ => none
  | first :: rest, hazard =>
    let last := (first :: rest).getLast (List.cons_ne_nil first rest)
    let max_level := pyMax (hazardLevel hazard first) (rest.map (hazardLevel hazard))
    match hazard with
    | .heat =>
      some { country := first.country, region_code := first.region_code,
             hazard := .heat, start_date := first.date, end_date := last.date,
             n_days := rest.length + 1, max_level := max_level,
             value_field := "max_tmax_c",
             value := pyMax first.tmax_c (rest.map (fun r => r.tmax_c)) }
    | .cold =>
      some { country := first.country, region_code := first.region_code,
             hazard := .cold, start_date := first.date, end_date := last.date,
             n_days := rest.length + 1, max_level := max_level,
             value_field := "min_tmin_c",
             value := pyMin first.tmin_c (rest.map (fun r => r.tmin_c)) }
    | .wind =>
      some { country := first.country, region_code := first.region_code,
             hazard := .wind, start_date := first.date, end_date := last.date,
             n_days := rest.length + 1, max_level := max_level,
             value_field := "max_wind_max_kmh",
             value := pyMax first.wind_max_kmh (rest.map (fun r => r.wind_max_kmh)) }
    | .rain =>
      some { country := first.country, region_code := first.region_code,
             hazard := .rain, start_date := first.date, end_date := last.date,
             n_days := rest.length + 1, max_level := max_level,
             value_field := "max_rain_mm",
             value := pyMax first.rain_mm (rest.map (fun r => r.rain_mm)) }

/-- `current_run and prev_date is not None and d == prev_date + timedelta(days=1)`. -/
def extendsRun (current_run : List RegionDay) (prev_date : Option Nat) (d : Nat) : Bool :=
  !current_run.isEmpty &&
    match prev_date with
    | some p => d == p + 1
    | none => false

/-- `if len(current_run) >= min_duration: events.append(summarise_run(...))`. -/
def closeRun (current_run : List RegionDay) (min_duration : Nat) (hazard : Hazard) :
    List AlertEvent :=
  if min_duration ≤ current_run.length then (summarise_run current_run hazard).toList else []

/-- The scan loop of `detect_events_for_country`, with the mutable
`events` / `current_run` / `prev_date` state threaded explicitly. -/
def detectLoop (hazard : Hazard) (min_level : ℤ) (min_duration : Nat) :
    List RegionDay → List RegionDay → Option Nat → List AlertEvent
  | [], current_run, _ => closeRun current_run min_duration hazard
  | row :: rest, current_run, prev_date =>
    if min_level ≤ hazardLevel hazard row then
      if extendsRun current_run prev_date row.date then
        detectLoop hazard min_level min_duration rest (current_run ++ [row]) (some row.date)
      else
        closeRun current_run min_duration hazard
          ++ detectLoop hazard min_level min_duration rest [row] (some row.date)
    else
      closeRun current_run min_duration hazard
        ++ detectLoop hazard min_level min_duration rest [] (some row.date)

/-- `detect_events_for_country` of `detect_alerts.py`: sort by date
(Python's `sorted` is a stable ascending sort, as is `List.mergeSort`),
then scan. -/
def detect_events_for_country (rows : List RegionDay) (hazard : Hazard) (cfg : HazardCfg) :
    List AlertEvent :=
  let rows_sorted := rows.mergeSort (fun a b => a.date ≤ b.date)
  detectLoop hazard cfg.min_level cfg.min_duration rows_sorted [] none

/-! ### `compute_indices.py` -/

/-- The four severity levels returned by `classify_levels`. -/
structure Levels where
  heat_level : ℤ
  cold_level : ℤ
  wind_level : ℤ
  rain_level : ℤ
deriving DecidableEq, Repr

/-- `classify_levels` of `compute_indices.py`, applied to the four metric
values it extracts from the row (all four must be present and numeric;
Python raises otherwise, so the embedding takes them as plain arguments). -/
def classify_levels (tmax tmin wind rain : ℚ) : Levels :=
  { heat_level := if 40 ≤ tmax then 3 else if 35 ≤ tmax then 2 else if 30 ≤ tmax then 1 else 0
    cold_level := if tmin ≤ -10 then 3 else if tmin ≤ -5 then 2 else if tmin ≤ 0 then 1 else 0
    wind_level := if 90 ≤ wind then 3 else if 70 ≤ wind then 2 else if 50 ≤ wind then 1 else 0
    rain_level := if 60 ≤ rain then 3 else if 40 ≤ rain then 2 else if 20 ≤ rain then 1 else 0 }

/-- `_safe_floats` of `compute_indices.py`: the valid values of one metric
across a group, in group order (missing / null / non-numeric entries are
`none` in the model and are skipped). -/
def _safe_floats (group : List RawObservation) (key : RawObservation → Option ℚ) : List ℚ :=
  group.filterMap key

/-- The per-group body of `compute_indices.main`: aggregate one
`(date, region_code)` group into a `RegionDay`, or `none` when any of the
four metrics has no valid value in the group (the `continue` branch).
`base` is `grp[0]`. -/
def aggregate_group (date : Nat) (region_code : String) (grp : List RawObservation) :
    Option RegionDay :=
  match grp, _safe_floats grp (fun r => r.tmax_c), _safe_floats grp (fun r => r.tmin_c),
      _safe_floats grp (fun r => r.wind_max_kmh), _safe_floats grp (fun r => r.rain_mm) with
  | base :: _, ta :: tas, ti :: tis, w :: ws, ra :: ras =>
    let tmax := pyMax ta tas
    let tmin := pyMin ti tis
    let wind := pyMax w ws
    let rain := (ra :: ras).sum
    let lv := classify_levels tmax tmin wind rain
    some { date := date, country := base.country, region_code := region_code,
           region_id := base.region_id, tmax_c := tmax, tmin_c := tmin,
           wind_max_kmh := wind, rain_mm := rain,
           heat_level := lv.heat_level, cold_level := lv.cold_level,
           wind_level := lv.wind_level, rain_level := lv.rain_level }
  | _, _, _, _, _ => none

/-- Append a row to its `(date, region_code)` group, creating the group at
the end on first appearance (Python's `defaultdict(list)` together with
dict insertion order). -/
def add_to_group (k : Nat × String) (row : RawObservation) :
    List ((Nat × String) × List RawObservation) → List ((Nat × String) × List RawObservation)
  | [] => [(k, [row])]
  | (k₂, g) :: rest =>
    if k₂ = k then (k₂, g ++ [row]) :: rest else (k₂, g) :: add_to_group k row rest

/-- The grouping loop of `compute_indices.main`. -/
def group_by_key (rows : List RawObservation) :
    List ((Nat × String) × List RawObservation) :=
  rows.foldl (fun acc row => add_to_group (row.date, row.region_code) row acc) []

/-- The pure core of `compute_indices.main`: raw rows in, region-days out. -/
def compute_regions_daily (rows : List RawObservation) : List RegionDay :=
  (group_by_key rows).filterMap (fun kg => aggregate_group kg.1.1 kg.1.2 kg.2)

/-- The dict key of the hazard-specific peak entry of an `AlertEvent`:
`"max_tmax_c"`, `"min_tmin_c"`, `"max_wind_max_kmh"`, `"max_rain_mm"`. -/
def peak_field : Hazard → String
  | .heat => "max_tmax_c"
  | .cold => "min_tmin_c"
  | .wind => "max_wind_max_kmh"
  | .rain => "max_rain_mm"

/-- The driving metric of each hazard on a `RegionDay`. -/
def metric : Hazard → RegionDay → ℚ
  | .heat, r => r.tmax_c
  | .cold, r => r.tmin_c
  | .wind, r => r.wind_max_kmh
  | .rain, r => r.rain_mm

/-- The hazard-specific peak value over a non-empty run `first :: rest`:
the minimum `tmin_c` for cold, the maximum of the driving metric otherwise. -/
def run_peak : Hazard → RegionDay → List RegionDay → ℚ
  | .heat, first, rest => pyMax first.tmax_c (rest.map fun r => r.tmax_c)
  | .cold, first, rest => pyMin first.tmin_c (rest.map fun r => r.tmin_c)
  | .wind, first, rest => pyMax first.wind_max_kmh (rest.map fun r => r.wind_max_kmh)
  | .rain, first, rest => pyMax first.rain_mm (rest.map fun r => r.rain_mm)

/-! ### `fetch_openmeteo.py` (retention only)

The network fetches are an oracle parameter (`fetched` stands for the
concatenation of the per-point fetch results); only the pure row
filtering / trimming of `run_backfill_mode` and `run_daily_mode` is
modelled, which is what decides retention. -/

/-- `HISTORY_DAYS = 180`. -/
def HISTORY_DAYS : Nat := 180

/-- The retention data-flow of `run_backfill_mode`: `end = today - 1`,
`combined = existing_rows + new_rows`, then keep the rows dated on or
after `end - (HISTORY_DAYS - 1)` (a lower cutoff only). -/
def run_backfill_trim (existing fetched : List RawObservation) (today : Nat) :
    List RawObservation :=
  let cutoff := (today - 1) - (HISTORY_DAYS - 1)
  (existing ++ fetched).filter (fun r => cutoff ≤ r.date)

/-- The retention data-flow of `run_daily_mode`: keep existing rows dated
strictly before today, keep fetched forecast rows dated today or tomorrow,
then keep the rows dated on or after `today - (HISTORY_DAYS - 1)`. -/
def run_daily_trim (existing fetched : List RawObservation) (today : Nat) :
    List RawObservation :=
  let base_rows := existing.filter (fun r => r.date < today)
  let new_rows := fetched.filter (fun r => r.date = today || r.date = today + 1)
  let cutoff := today - (HISTORY_DAYS - 1)
  (base_rows ++ new_rows).filter (fun r => cutoff ≤ r.date)

/-! ### Concrete inputs for the worked examples -/

/-- `date(2024, 6, 1).toordinal()`. -/
def day20240601 : Nat := 739038

/-- A heat-stream region-day of the worked examples. -/
def exHeatDay (d : Nat) (lvl : ℤ) (tmax : ℚ) : RegionDay :=
  { date := d, country := "FR", region_code := "R", region_id := "FR-R",
    tmax_c := tmax, tmin_c := 12, wind_max_kmh := 20, rain_mm := 0,
    heat_level := lvl, cold_level := 0, wind_level := 0, rain_level := 0 }

/-- Region R, 2024-06-01..06, heat levels `[1, 2, 0, 1, 1, 1]`. -/
def exRowsRun : List RegionDay :=
  [ exHeatDay day20240601 1 31,
    exHeatDay (day20240601 + 1) 2 36,
    exHeatDay (day20240601 + 2) 0 25,
    exHeatDay (day20240601 + 3) 1 31,
    exHeatDay (day20240601 + 4) 1 32,
    exHeatDay (day20240601 + 5) 1 30 ]

/-- Same stream with 2024-06-03 absent from the input entirely
(five records, all of qualifying level). -/
def exRowsGap : List RegionDay :=
  [ exHeatDay day20240601 1 31,
    exHeatDay (day20240601 + 1) 2 36,
    exHeatDay (day20240601 + 3) 1 31,
    exHeatDay (day20240601 + 4) 1 32,
    exHeatDay (day20240601 + 5) 1 30 ]

/-- A cold-stream region-day of the worked examples. -/
def exColdDay (d : Nat) (lvl : ℤ) (tmin : ℚ) : RegionDay :=
  { date := d, country := "FR", region_code := "R", region_id := "FR-R",
    tmax_c := 2, tmin_c := tmin, wind_max_kmh := 20, rain_mm := 0,
    heat_level := 0, cold_level := lvl, wind_level := 0, rain_level := 0 }

/-- A cold run whose `tmin_c` values are `[-6, -12, -8]`. -/
def exColdRun : List RegionDay :=
  [ exColdDay day20240601 2 (-6),
    exColdDay (day20240601 + 1) 3 (-12),
    exColdDay (day20240601 + 2) 2 (-8) ]

/-- A raw observation of the worked examples (all four metrics given). -/
def exObs (d : Nat) (city : String) (tmax tmin wind rain : ℚ) : RawObservation :=
  { date := d, country := "FR", region_id := "FR-R", region_code := "R", city := city,
    tmax_c := some tmax, tmin_c := some tmin, wind_max_kmh := some wind,
    rain_mm := some rain, snow_mm := none }

/-- The expected first event of the worked run: 2024-06-01..02, two days,
max level 2, peak `tmax` 36. -/
def exEventA : AlertEvent :=
  { country := "FR", region_code := "R", hazard := .heat,
    start_date := day20240601, end_date := day20240601 + 1,
    n_days := 2, max_level := 2, value_field := "max_tmax_c", value := 36 }

/-- The expected second event of the worked run: 2024-06-04..06, three days,
max level 1, peak `tmax` 32. -/
def exEventB : AlertEvent :=
  { country := "FR", region_code := "R", hazard := .heat,
    start_date := day20240601 + 3, end_date := day20240601 + 5,
    n_days := 3, max_level := 1, value_field := "max_tmax_c", value := 32 }

/-- The event summarising `exColdRun`: peak field `"min_tmin_c"`, value −12. -/
def exColdEvent : AlertEvent :=
  { country := "FR", region_code := "R", hazard := .cold,
    start_date := day20240601, end_date := day20240601 + 2,
    n_days := 3, max_level := 3, value_field := "min_tmin_c", value := -12 }

/-- A raw observation whose `tmax_c` is missing / non-numeric but whose
other three metrics are valid. -/
def exObsNoTmax : RawObservation :=
  { date := day20240601, country := "FR", region_id := "FR-R", region_code := "R",
    city := "A", tmax_c := none, tmin_c := some 1, wind_max_kmh := some 100,
    rain_mm := some 5, snow_mm := none }

/-- A two-city group for one `(date, region)` key, all metrics valid. -/
def exGroupW : List RawObservation :=
  [exObs day20240601 "A" 20 0 10 1, exObs day20240601 "B" 25 (-3) 60 2]

/-- The `RegionDay` aggregated from `exGroupW`:
tmax 25, tmin −3, wind 60, rain 1 + 2 = 3. -/
def exRegionDayW : RegionDay :=
  { date := day20240601, country := "FR", region_code := "R", region_id := "FR-R",
    tmax_c := 25, tmin_c := -3, wind_max_kmh := 60, rain_mm := 3,
    heat_level := 0, cold_level := 1, wind_level := 1, rain_level := 0 }

/-- A group whose first record is missing its `tmax_c` while carrying a
valid wind value. -/
def exGroupNoTmax : List RawObservation :=
  [exObsNoTmax, exObs day20240601 "B" 20 0 10 0]

/-- The `RegionDay` aggregated from `exGroupNoTmax`: the record with the
missing `tmax_c` still contributes wind 100, tmin 1 and rain 5. -/
def exRegionDayNoTmax : RegionDay :=
  { date := day20240601, country := "FR", region_code := "R", region_id := "FR-R",
    tmax_c := 20, tmin_c := 0, wind_max_kmh := 100, rain_mm := 5,
    heat_level := 0, cold_level := 1, wind_level := 3, rain_level := 0 }

/-! ## Helper lemmas -/

lemma pyMax_cons {α : Type} [LinearOrder α] (x y : α) (ys : List α) :
    pyMax x (y :: ys) = pyMax (max x y) ys := rfl

lemma pyMin_cons {α : Type} [LinearOrder α] (x y : α) (ys : List α) :
    pyMin x (y :: ys) = pyMin (min x y) ys := rfl

lemma le_pyMax_self {α : Type} [LinearOrder α] (x : α) (xs : List α) : x ≤ pyMax x xs := by
  induction xs generalizing x with
  | nil => exact le_rfl
  | cons y ys ih => exact le_trans (le_max_left x y) (ih (max x y))

lemma le_pyMax_of_mem {α : Type} [LinearOrder α] {a : α} {xs : List α} (x : α)
    (h : a ∈ xs) : a ≤ pyMax x xs := by
  induction xs generalizing x with
  | nil => cases h
  | cons y ys ih =>
    rcases List.mem_cons.mp h with rfl | h
    · exact le_trans (le_max_right x a) (le_pyMax_self (max x a) ys)
    · exact ih (max x y) h

lemma pyMax_mem_cons {α : Type} [LinearOrder α] (x : α) (xs : List α) :
    pyMax x xs ∈ x :: xs := by
  induction xs generalizing x with
  | nil => exact List.mem_singleton.mpr rfl
  | cons y ys ih =>
    rcases List.mem_cons.mp (ih (max x y)) with h | h
    · rcases max_choice x y with hx | hy
      · exact List.mem_cons.mpr (Or.inl (h.trans hx))
      · exact List.mem_cons.mpr (Or.inr (List.mem_cons.mpr (Or.inl (h.trans hy))))
    · exact List.mem_cons.mpr (Or.inr (List.mem_cons.mpr (Or.inr h)))

lemma pyMin_le_self {α : Type} [LinearOrder α] (x : α) (xs : List α) : pyMin x xs ≤ x := by
  induction xs generalizing x with
  | nil => exact le_rfl
  | cons y ys ih => exact le_trans (ih (min x y)) (min_le_left x y)

lemma pyMin_le_of_mem {α : Type} [LinearOrder α] {a : α} {xs : List α} (x : α)
    (h : a ∈ xs) : pyMin x xs ≤ a := by
  induction xs generalizing x with
  | nil => cases h
  | cons y ys ih =>
    rcases List.mem_cons.mp h with rfl | h
    · exact le_trans (pyMin_le_self (min x a) ys) (min_le_right x a)
    · exact ih (min x y) h

lemma pyMin_mem_cons {α : Type} [LinearOrder α] (x : α) (xs : List α) :
    pyMin x xs ∈ x :: xs := by
  induction xs generalizing x with
  | nil => exact List.mem_singleton.mpr rfl
  | cons y ys ih =>
    rcases List.mem_cons.mp (ih (min x y)) with h | h
    · rcases min_choice x y with hx | hy
      · exact List.mem_cons.mpr (Or.inl (h.trans hx))
      · exact List.mem_cons.mpr (Or.inr (List.mem_cons.mpr (Or.inl (h.trans hy))))
    · exact List.mem_cons.mpr (Or.inr (List.mem_cons.mpr (Or.inr h)))

lemma summarise_run_ne_nil {rows : List RegionDay} {hz : Hazard} {e : AlertEvent}
    (h : summarise_run rows hz = some e) : rows ≠ [] := by
  cases rows with
  | nil => simp [summarise_run] at h
  | cons a l => exact List.cons_ne_nil a l

/-- Shape of a summarised run: the emitted event, field by field. -/
lemma summarise_run_eq {rows : List RegionDay} {hz : Hazard} {e : AlertEvent}
    (h : summarise_run rows hz = some e) :
    ∃ first rest, rows = first :: rest ∧
      e = { country := first.country, region_code := first.region_code, hazard := hz,
            start_date := first.date,
            end_date := ((first :: rest).getLast (List.cons_ne_nil first rest)).date,
            n_days := rest.length + 1,
            max_level := pyMax (hazardLevel hz first) (rest.map (hazardLevel hz)),
            value_field := peak_field hz,
            value := run_peak hz first rest } := by
  cases rows with
  | nil => simp [summarise_run] at h
  | cons first rest =>
    refine ⟨first, rest, rfl, ?_⟩
    cases hz <;>
      simpa [summarise_run, peak_field, run_peak, eq_comm] using h

lemma mem_closeRun {run : List RegionDay} {md : Nat} {hz : Hazard} {e : AlertEvent}
    (h : e ∈ closeRun run md hz) :
    md ≤ run.length ∧ summarise_run run hz = some e := by
  unfold closeRun at h
  split at h
  · rcases hs : summarise_run run hz with _ | a
    · rw [hs] at h
      simp at h
    · rw [hs] at h
      simp only [Option.toList_some, List.mem_singleton] at h
      subst h
      exact ⟨by assumption, rfl⟩
  · cases h

lemma extendsRun_eq_true {run : List RegionDay} {prev : Option Nat} {d : Nat}
    (h : extendsRun run prev d = true) :
    run ≠ [] ∧ ∃ p, prev = some p ∧ d = p + 1 := by
  unfold extendsRun at h
  cases prev with
  | none => simp at h
  | some p =>
    simp only [Bool.and_eq_true, beq_iff_eq, Bool.not_eq_true'] at h
    rcases h with ⟨h1, h2⟩
    refine ⟨?_, p, rfl, h2⟩
    intro hnil
    rw [hnil] at h1
    simp at h1

/-- The last date of a date-contiguous run. -/
lemma contig_getLast_date :
    ∀ (first : RegionDay) (rest : List RegionDay),
      (first :: rest).Chain' (fun a b => b.date = a.date + 1) →
      ((first :: rest).getLast (List.cons_ne_nil first rest)).date =
        first.date + rest.length := by
  intro first rest
  induction rest generalizing first with
  | nil => intro _; simp
  | cons b bs ih =>
    intro h
    rcases List.chain'_cons.mp h with ⟨hb, hrest⟩
    have hih := ih b hrest
    rw [List.getLast_cons (List.cons_ne_nil b bs), hih]
    simp only [List.length_cons]
    omega

/-- Every date inside the span of a date-contiguous run is the date of one
of its records. -/
lemma contig_covers :
    ∀ (first : RegionDay) (rest : List RegionDay),
      (first :: rest).Chain' (fun a b => b.date = a.date + 1) →
      ∀ d : Nat, first.date ≤ d → d ≤ first.date + rest.length →
        ∃ r ∈ first :: rest, r.date = d := by
  intro first rest
  induction rest generalizing first with
  | nil =>
    intro _ d h1 h2
    simp only [List.length_nil, Nat.add_zero] at h2
    exact ⟨first, List.mem_singleton.mpr rfl, by omega⟩
  | cons b bs ih =>
    intro h d h1 h2
    rcases List.chain'_cons.mp h with ⟨hb, hrest⟩
    rcases eq_or_lt_of_le h1 with heq | hlt
    · exact ⟨first, List.mem_cons_self first _, heq⟩
    · have hb1 : b.date ≤ d := by omega
      have hb2 : d ≤ b.date + bs.length := by
        simp only [List.length_cons] at h2
        omega
      rcases ih b hrest d hb1 hb2 with ⟨r, hr, hrd⟩
      exact ⟨r, List.mem_cons.mpr (Or.inr hr), hrd⟩

/-- Soundness of the scan loop: every emitted event is the summary of a
non-empty, date-contiguous, all-qualifying run of length at least
`min_duration`, drawn from the open run and the remaining input. -/
lemma detectLoop_sound (hazard : Hazard) (min_level : ℤ) (min_duration : Nat) :
    ∀ (l run : List RegionDay) (prev : Option Nat),
      run.Chain' (fun a b => b.date = a.date + 1) →
      (∀ r ∈ run, min_level ≤ hazardLevel hazard r) →
      (∀ g, run.getLast? = some g → prev = some g.date) →
      ∀ e ∈ detectLoop hazard min_level min_duration l run prev,
        ∃ rs, rs.Chain' (fun a b => b.date = a.date + 1) ∧
          (∀ r ∈ rs, min_level ≤ hazardLevel hazard r) ∧
          min_duration ≤ rs.length ∧ (∀ r ∈ rs, r ∈ run ∨ r ∈ l) ∧
          summarise_run rs hazard = some e := by
  intro l
  induction l with
  | nil =>
    intro run prev hchain hqual _ e he
    simp only [detectLoop] at he
    obtain ⟨hlen, hsum⟩ := mem_closeRun he
    exact ⟨run, hchain, hqual, hlen, fun r hr => Or.inl hr, hsum⟩
  | cons row rest ih =>
    intro run prev hchain hqual hprev e he
    simp only [detectLoop] at he
    by_cases hq : min_level ≤ hazardLevel hazard row
    · rw [if_pos hq] at he
      by_cases hx : extendsRun run prev row.date = true
      · rw [if_pos hx] at he
        obtain ⟨hne, p, hp, hd⟩ := extendsRun_eq_true hx
        have hchain2 : (run ++ [row]).Chain' (fun a b => b.date = a.date + 1) := by
          refine List.chain'_append.mpr ⟨hchain, List.chain'_singleton row, ?_⟩
          intro x hx2 y hy2
          simp only [List.head?_cons, Option.mem_def, Option.some.injEq] at hy2
          subst hy2
          have := hprev x hx2
          rw [hp] at this
          have hpx : p = x.date := by
            injection this
          omega
        have hqual2 : ∀ r ∈ run ++ [row], min_level ≤ hazardLevel hazard r := by
          intro r hr
          rcases List.mem_append.mp hr with h1 | h1
          · exact hqual r h1
          · rw [List.mem_singleton.mp h1]
            exact hq
        have hprev2 : ∀ g, (run ++ [row]).getLast? = some g → some row.date = some g.date := by
          intro g hg
          rw [List.getLast?_concat] at hg
          injection hg with hg
          rw [← hg]
        rcases ih (run ++ [row]) (some row.date) hchain2 hqual2 hprev2 e he with
          ⟨rs, hc, hql, hlen, hmem, hsum⟩
        refine ⟨rs, hc, hql, hlen, ?_, hsum⟩
        intro r hr
        rcases hmem r hr with h1 | h1
        · rcases List.mem_append.mp h1 with h2 | h2
          · exact Or.inl h2
          · exact Or.inr (List.mem_cons.mpr (Or.inl (List.mem_singleton.mp h2)))
        · exact Or.inr (List.mem_cons.mpr (Or.inr h1))
      · rw [if_neg hx] at he
        rcases List.mem_append.mp he with h1 | h1
        · obtain ⟨hlen, hsum⟩ := mem_closeRun h1
          exact ⟨run, hchain, hqual, hlen, fun r hr => Or.inl hr, hsum⟩
        · have hqual1 : ∀ r ∈ [row], min_level ≤ hazardLevel hazard r := by
            intro r hr
            rw [List.mem_singleton.mp hr]
            exact hq
          have hprev1 : ∀ g, ([row] : List RegionDay).getLast? = some g →
              some row.date = some g.date := by
            intro g hg
            simp only [List.getLast?_singleton, Option.some.injEq] at hg
            rw [← hg]
          rcases ih [row] (some row.date) (List.chain'_singleton row) hqual1 hprev1 e h1 with
            ⟨rs, hc, hql, hlen, hmem, hsum⟩
          refine ⟨rs, hc, hql, hlen, ?_, hsum⟩
          intro r hr
          rcases hmem r hr with h2 | h2
          · exact Or.inr (List.mem_cons.mpr (Or.inl (List.mem_singleton.mp h2)))
          · exact Or.inr (List.mem_cons.mpr (Or.inr h2))
    · rw [if_neg hq] at he
      rcases List.mem_append.mp he with h1 | h1
      · obtain ⟨hlen, hsum⟩ := mem_closeRun h1
        exact ⟨run, hchain, hqual, hlen, fun r hr => Or.inl hr, hsum⟩
      · have hprev1 : ∀ g, ([] : List RegionDay).getLast? = some g →
            some row.date = some g.date := by
          intro g hg
          simp at hg
        rcases ih [] (some row.date) List.chain'_nil (by simp) hprev1 e h1 with
          ⟨rs, hc, hql, hlen, hmem, hsum⟩
        refine ⟨rs, hc, hql, hlen, ?_, hsum⟩
        intro r hr
        rcases hmem r hr with h2 | h2
        · cases h2
        · exact Or.inr (List.mem_cons.mpr (Or.inr h2))

lemma pairwise_closeRun (run : List RegionDay) (md : Nat) (hz : Hazard)
    (R : AlertEvent → AlertEvent → Prop) : (closeRun run md hz).Pairwise R := by
  unfold closeRun
  split
  · cases summarise_run run hz <;> simp
  · simp

lemma pairwise_head_le_getLast {first : RegionDay} {rest : List RegionDay}
    (hp : (first :: rest).Pairwise (fun a b => a.date < b.date)) :
    first.date ≤ ((first :: rest).getLast (List.cons_ne_nil first rest)).date := by
  cases rest with
  | nil => exact le_rfl
  | cons b bs =>
    rw [List.getLast_cons (List.cons_ne_nil b bs)]
    exact le_of_lt ((List.pairwise_cons.mp hp).1 _ (List.getLast_mem (List.cons_ne_nil b bs)))

/-- The start and end of an event closed out of `run` are dates of members
of `run`, and start ≤ end when `run` is strictly date-sorted. -/
lemma closeRun_event_facts {run : List RegionDay} {md : Nat} {hz : Hazard} {e : AlertEvent}
    (hp : run.Pairwise (fun a b => a.date < b.date)) (h : e ∈ closeRun run md hz) :
    (∃ r ∈ run, e.start_date = r.date) ∧ (∃ r ∈ run, e.end_date = r.date) ∧
      e.start_date ≤ e.end_date := by
  obtain ⟨_, hsum⟩ := mem_closeRun h
  obtain ⟨first, rest, rfl, he⟩ := summarise_run_eq hsum
  subst he
  exact ⟨⟨first, List.mem_cons_self first rest, rfl⟩,
    ⟨(first :: rest).getLast (List.cons_ne_nil first rest),
      List.getLast_mem (List.cons_ne_nil first rest), rfl⟩,
    pairwise_head_le_getLast hp⟩

/-- Ordering of the scan loop's output on a strictly date-sorted input:
events are emitted with strictly increasing, non-overlapping spans. -/
lemma detectLoop_pairwise (hazard : Hazard) (min_level : ℤ) (min_duration : Nat) :
    ∀ (l run : List RegionDay) (prev : Option Nat),
      (run ++ l).Pairwise (fun a b => a.date < b.date) →
      (detectLoop hazard min_level min_duration l run prev).Pairwise
          (fun a b => a.end_date < b.start_date) ∧
      ∀ e ∈ detectLoop hazard min_level min_duration l run prev,
        (∃ r ∈ run ++ l, e.start_date = r.date) ∧ (∃ r ∈ run ++ l, e.end_date = r.date) ∧
          e.start_date ≤ e.end_date := by
  intro l
  induction l with
  | nil =>
    intro run prev hp
    rw [List.append_nil] at hp
    have hout : detectLoop hazard min_level min_duration [] run prev =
        closeRun run min_duration hazard := by
      simp only [detectLoop]
    rw [hout]
    refine ⟨pairwise_closeRun run min_duration hazard _, ?_⟩
    intro e he
    obtain ⟨⟨r1, hr1, h1⟩, ⟨r2, hr2, h2⟩, h3⟩ := closeRun_event_facts hp he
    exact ⟨⟨r1, List.mem_append_left [] hr1, h1⟩, ⟨r2, List.mem_append_left [] hr2, h2⟩, h3⟩
  | cons row rest ih =>
    intro run prev hp
    obtain ⟨hp_run, hp_rl, hcross⟩ := List.pairwise_append.mp hp
    by_cases hq : min_level ≤ hazardLevel hazard row
    · by_cases hx : extendsRun run prev row.date = true
      · have hout : detectLoop hazard min_level min_duration (row :: rest) run prev =
            detectLoop hazard min_level min_duration rest (run ++ [row]) (some row.date) := by
          simp only [detectLoop, if_pos hq, if_pos hx]
        rw [hout]
        have hp2 : ((run ++ [row]) ++ rest).Pairwise (fun a b => a.date < b.date) := by
          rw [List.append_assoc, List.singleton_append]
          exact hp
        have hrec := ih (run ++ [row]) (some row.date) hp2
        refine ⟨hrec.1, ?_⟩
        intro e he
        obtain ⟨⟨r1, hr1, h1⟩, ⟨r2, hr2, h2⟩, h3⟩ := hrec.2 e he
        rw [List.append_assoc, List.singleton_append] at hr1 hr2
        exact ⟨⟨r1, hr1, h1⟩, ⟨r2, hr2, h2⟩, h3⟩
      · have hout : detectLoop hazard min_level min_duration (row :: rest) run prev =
            closeRun run min_duration hazard
              ++ detectLoop hazard min_level min_duration rest [row] (some row.date) := by
          simp only [detectLoop, if_pos hq, if_neg hx]
        rw [hout]
        have hp1 : ([row] ++ rest).Pairwise (fun a b => a.date < b.date) := by
          rw [List.singleton_append]
          exact hp_rl
        have hrec := ih [row] (some row.date) hp1
        constructor
        · refine List.pairwise_append.mpr ⟨pairwise_closeRun run min_duration hazard _,
            hrec.1, ?_⟩
          intro e1 he1 e2 he2
          obtain ⟨_, ⟨r2, hr2, hend⟩, _⟩ := closeRun_event_facts hp_run he1
          obtain ⟨⟨r3, hr3, hst⟩, _, _⟩ := hrec.2 e2 he2
          rw [List.singleton_append] at hr3
          rw [hend, hst]
          exact hcross r2 hr2 r3 hr3
        · intro e he
          rcases List.mem_append.mp he with h1 | h1
          · obtain ⟨⟨r1, hr1, hs1⟩, ⟨r2, hr2, hs2⟩, h3⟩ := closeRun_event_facts hp_run h1
            exact ⟨⟨r1, List.mem_append_left _ hr1, hs1⟩,
              ⟨r2, List.mem_append_left _ hr2, hs2⟩, h3⟩
          · obtain ⟨⟨r1, hr1, hs1⟩, ⟨r2, hr2, hs2⟩, h3⟩ := hrec.2 e h1
            rw [List.singleton_append] at hr1 hr2
            exact ⟨⟨r1, List.mem_append_right run hr1, hs1⟩,
              ⟨r2, List.mem_append_right run hr2, hs2⟩, h3⟩
    · have hout : detectLoop hazard min_level min_duration (row :: rest) run prev =
          closeRun run min_duration hazard
            ++ detectLoop hazard min_level min_duration rest [] (some row.date) := by
        simp only [detectLoop, if_neg hq]
      rw [hout]
      have hp1 : (([] : List RegionDay) ++ rest).Pairwise (fun a b => a.date < b.date) := by
        rw [List.nil_append]
        exact (List.pairwise_cons.mp hp_rl).2
      have hrec := ih [] (some row.date) hp1
      constructor
      · refine List.pairwise_append.mpr ⟨pairwise_closeRun run min_duration hazard _,
          hrec.1, ?_⟩
        intro e1 he1 e2 he2
        obtain ⟨_, ⟨r2, hr2, hend⟩, _⟩ := closeRun_event_facts hp_run he1
        obtain ⟨⟨r3, hr3, hst⟩, _, _⟩ := hrec.2 e2 he2
        rw [List.nil_append] at hr3
        rw [hend, hst]
        exact hcross r2 hr2 r3 (List.mem_cons.mpr (Or.inr hr3))
      · intro e he
        rcases List.mem_append.mp he with h1 | h1
        · obtain ⟨⟨r1, hr1, hs1⟩, ⟨r2, hr2, hs2⟩, h3⟩ := closeRun_event_facts hp_run h1
          exact ⟨⟨r1, List.mem_append_left _ hr1, hs1⟩,
            ⟨r2, List.mem_append_left _ hr2, hs2⟩, h3⟩
        · obtain ⟨⟨r1, hr1, hs1⟩, ⟨r2, hr2, hs2⟩, h3⟩ := hrec.2 e h1
          rw [List.nil_append] at hr1 hr2
          exact ⟨⟨r1, List.mem_append_right run (List.mem_cons.mpr (Or.inr hr1)), hs1⟩,
            ⟨r2, List.mem_append_right run (List.mem_cons.mpr (Or.inr hr2)), hs2⟩, h3⟩

/-- The sort in `detect_events_for_country` yields dates in ascending order. -/
lemma sorted_rows_pairwise_le (rows : List RegionDay) :
    (rows.mergeSort (fun a b => a.date ≤ b.date)).Pairwise (fun a b => a.date ≤ b.date) := by
  have h := @List.sorted_mergeSort RegionDay (fun a b => a.date ≤ b.date)
    (by
      intro a b c h1 h2
      simp only [decide_eq_true_eq] at h1 h2 ⊢
      omega)
    (by
      intro a b
      by_cases hab : a.date ≤ b.date
      · simp [hab]
      · simp only [Bool.or_eq_true, decide_eq_true_eq]
        omega)
    rows
  exact h.imp (by
    intro a b hb
    simpa using hb)

/-- When the input dates are pairwise distinct, the sort is strictly
ascending. -/
lemma sorted_rows_pairwise_lt {rows : List RegionDay}
    (hnd : rows.Pairwise (fun a b => a.date ≠ b.date)) :
    (rows.mergeSort (fun a b => a.date ≤ b.date)).Pairwise (fun a b => a.date < b.date) := by
  have hperm := List.mergeSort_perm rows (fun a b => a.date ≤ b.date)
  have hne : (rows.mergeSort (fun a b => a.date ≤ b.date)).Pairwise
      (fun a b => a.date ≠ b.date) :=
    (hperm.pairwise_iff (fun h => h.symm)).mpr hnd
  exact ((sorted_rows_pairwise_le rows).and hne).imp
    (fun h => lt_of_le_of_ne h.1 h.2)

/-- Soundness of the detector as called (sorting included). -/
lemma detect_sound (rows : List RegionDay) (hz : Hazard) (cfg : HazardCfg) :
    ∀ e ∈ detect_events_for_country rows hz cfg,
      ∃ rs, rs.Chain' (fun a b => b.date = a.date + 1) ∧
        (∀ r ∈ rs, cfg.min_level ≤ hazardLevel hz r) ∧
        cfg.min_duration ≤ rs.length ∧ (∀ r ∈ rs, r ∈ rows) ∧
        summarise_run rs hz = some e := by
  intro e he
  simp only [detect_events_for_country] at he
  rcases detectLoop_sound hz cfg.min_level cfg.min_duration
      (rows.mergeSort (fun a b => a.date ≤ b.date)) [] none List.chain'_nil
      (by simp) (by simp) e he with ⟨rs, hc, hq, hl, hm, hs⟩
  refine ⟨rs, hc, hq, hl, ?_, hs⟩
  intro r hr
  rcases hm r hr with h | h
  · cases h
  · exact ((List.mergeSort_perm rows (fun a b => a.date ≤ b.date)).mem_iff).mp h

/-- Level-by-level characterisation of the heat ladder. -/
lemma classify_heat_char (tmax tmin wind rain : ℚ) :
    ((classify_levels tmax tmin wind rain).heat_level = 3 ↔ 40 ≤ tmax) ∧
    ((classify_levels tmax tmin wind rain).heat_level = 2 ↔ 35 ≤ tmax ∧ tmax < 40) ∧
    ((classify_levels tmax tmin wind rain).heat_level = 1 ↔ 30 ≤ tmax ∧ tmax < 35) ∧
    ((classify_levels tmax tmin wind rain).heat_level = 0 ↔ tmax < 30) := by
  simp only [classify_levels]
  split_ifs with h1 h2 h3 <;>
    refine ⟨?_, ?_, ?_, ?_⟩ <;> constructor <;> intro h <;>
    first
      | rfl
      | linarith
      | (exact ⟨by linarith, by linarith⟩)
      | (obtain ⟨ha, hb⟩ := h; linarith)

/-- Level-by-level characterisation of the cold ladder. -/
lemma classify_cold_char (tmax tmin wind rain : ℚ) :
    ((classify_levels tmax tmin wind rain).cold_level = 3 ↔ tmin ≤ -10) ∧
    ((classify_levels tmax tmin wind rain).cold_level = 2 ↔ tmin ≤ -5 ∧ -10 < tmin) ∧
    ((classify_levels tmax tmin wind rain).cold_level = 1 ↔ tmin ≤ 0 ∧ -5 < tmin) ∧
    ((classify_levels tmax tmin wind rain).cold_level = 0 ↔ 0 < tmin) := by
  simp only [classify_levels]
  split_ifs with h1 h2 h3 <;>
    refine ⟨?_, ?_, ?_, ?_⟩ <;> constructor <;> intro h <;>
    first
      | rfl
      | linarith
      | (exact ⟨by linarith, by linarith⟩)
      | (obtain ⟨ha, hb⟩ := h; linarith)

/-- Level-by-level characterisation of the wind ladder. -/
lemma classify_wind_char (tmax tmin wind rain : ℚ) :
    ((classify_levels tmax tmin wind rain).wind_level = 3 ↔ 90 ≤ wind) ∧
    ((classify_levels tmax tmin wind rain).wind_level = 2 ↔ 70 ≤ wind ∧ wind < 90) ∧
    ((classify_levels tmax tmin wind rain).wind_level = 1 ↔ 50 ≤ wind ∧ wind < 70) ∧
    ((classify_levels tmax tmin wind rain).wind_level = 0 ↔ wind < 50) := by
  simp only [classify_levels]
  split_ifs with h1 h2 h3 <;>
    refine ⟨?_, ?_, ?_, ?_⟩ <;> constructor <;> intro h <;>
    first
      | rfl
      | linarith
      | (exact ⟨by linarith, by linarith⟩)
      | (obtain ⟨ha, hb⟩ := h; linarith)

/-- Level-by-level characterisation of the rain ladder. -/
lemma classify_rain_char (tmax tmin wind rain : ℚ) :
    ((classify_levels tmax tmin wind rain).rain_level = 3 ↔ 60 ≤ rain) ∧
    ((classify_levels tmax tmin wind rain).rain_level = 2 ↔ 40 ≤ rain ∧ rain < 60) ∧
    ((classify_levels tmax tmin wind rain).rain_level = 1 ↔ 20 ≤ rain ∧ rain < 40) ∧
    ((classify_levels tmax tmin wind rain).rain_level = 0 ↔ rain < 20) := by
  simp only [classify_levels]
  split_ifs with h1 h2 h3 <;>
    refine ⟨?_, ?_, ?_, ?_⟩ <;> constructor <;> intro h <;>
    first
      | rfl
      | linarith
      | (exact ⟨by linarith, by linarith⟩)
      | (obtain ⟨ha, hb⟩ := h; linarith)

lemma pyMax_ub {α : Type} [LinearOrder α] {a x : α} {xs : List α} (h : a ∈ x :: xs) :
    a ≤ pyMax x xs := by
  rcases List.mem_cons.mp h with rfl | h
  · exact le_pyMax_self a xs
  · exact le_pyMax_of_mem x h

lemma pyMin_lb {α : Type} [LinearOrder α] {a x : α} {xs : List α} (h : a ∈ x :: xs) :
    pyMin x xs ≤ a := by
  rcases List.mem_cons.mp h with rfl | h
  · exact pyMin_le_self a xs
  · exact pyMin_le_of_mem x h

/-- The group is skipped exactly when one of the four metrics has no valid
value in the group. -/
lemma aggregate_group_none_iff (d : Nat) (code : String) (grp : List RawObservation) :
    aggregate_group d code grp = none ↔
      _safe_floats grp (fun r => r.tmax_c) = [] ∨
      _safe_floats grp (fun r => r.tmin_c) = [] ∨
      _safe_floats grp (fun r => r.wind_max_kmh) = [] ∨
      _safe_floats grp (fun r => r.rain_mm) = [] := by
  rcases grp with _ | ⟨base, gtl⟩
  · simp [aggregate_group, _safe_floats]
  · rcases hta : _safe_floats (base :: gtl) (fun r => r.tmax_c) with _ | ⟨ta, tas⟩ <;>
      rcases hti : _safe_floats (base :: gtl) (fun r => r.tmin_c) with _ | ⟨ti, tis⟩ <;>
      rcases hw : _safe_floats (base :: gtl) (fun r => r.wind_max_kmh) with _ | ⟨w, ws⟩ <;>
      rcases hra : _safe_floats (base :: gtl) (fun r => r.rain_mm) with _ | ⟨ra, ras⟩ <;>
      simp [aggregate_group, hta, hti, hw, hra]

/-- Field-level description of an emitted `RegionDay` aggregate. -/
lemma aggregate_group_some {d : Nat} {code : String} {grp : List RawObservation}
    {rd : RegionDay} (h : aggregate_group d code grp = some rd) :
    (rd.tmax_c ∈ _safe_floats grp (fun r => r.tmax_c) ∧
      ∀ v ∈ _safe_floats grp (fun r => r.tmax_c), v ≤ rd.tmax_c) ∧
    (rd.tmin_c ∈ _safe_floats grp (fun r => r.tmin_c) ∧
      ∀ v ∈ _safe_floats grp (fun r => r.tmin_c), rd.tmin_c ≤ v) ∧
    (rd.wind_max_kmh ∈ _safe_floats grp (fun r => r.wind_max_kmh) ∧
      ∀ v ∈ _safe_floats grp (fun r => r.wind_max_kmh), v ≤ rd.wind_max_kmh) ∧
    rd.rain_mm = (_safe_floats grp (fun r => r.rain_mm)).sum := by
  have hne : ¬(_safe_floats grp (fun r => r.tmax_c) = [] ∨
      _safe_floats grp (fun r => r.tmin_c) = [] ∨
      _safe_floats grp (fun r => r.wind_max_kmh) = [] ∨
      _safe_floats grp (fun r => r.rain_mm) = []) := by
    rw [← aggregate_group_none_iff d code grp]
    simp [h]
  push_neg at hne
  obtain ⟨h1, h2, h3, h4⟩ := hne
  rcases grp with _ | ⟨base, gtl⟩
  · exact absurd rfl h1
  rcases hta : _safe_floats (base :: gtl) (fun r => r.tmax_c) with _ | ⟨ta, tas⟩
  · exact absurd hta h1
  rcases hti : _safe_floats (base :: gtl) (fun r => r.tmin_c) with _ | ⟨ti, tis⟩
  · exact absurd hti h2
  rcases hw : _safe_floats (base :: gtl) (fun r => r.wind_max_kmh) with _ | ⟨w, ws⟩
  · exact absurd hw h3
  rcases hra : _safe_floats (base :: gtl) (fun r => r.rain_mm) with _ | ⟨ra, ras⟩
  · exact absurd hra h4
  unfold aggregate_group at h
  rw [hta, hti, hw, hra] at h
  dsimp only at h
  rw [Option.some.injEq] at h
  subst h
  simp only [hta, hti, hw, hra]
  exact ⟨⟨pyMax_mem_cons ta tas, fun v hv => pyMax_ub hv⟩,
    ⟨pyMin_mem_cons ti tis, fun v hv => pyMin_lb hv⟩,
    ⟨pyMax_mem_cons w ws, fun v hv => pyMax_ub hv⟩, trivial⟩

/-! ## Claims -/

/-- C3: for every record with all four metrics present and numeric, the
classifier's four threshold ladders hold with inclusive boundaries (heat
3/2/1 at tmax ≥ 40/35/30, cold 3/2/1 at tmin ≤ −10/−5/0, wind 3/2/1 at
wind ≥ 90/70/50, rain 3/2/1 at rain ≥ 60/40/20, else 0); boundary values
belong to the higher tier, and each level is a function of its own driving
metric alone. -/
theorem C3_threshold_ladders (tmax tmin wind rain : ℚ) :
    (((classify_levels tmax tmin wind rain).heat_level = 3 ↔ 40 ≤ tmax) ∧
      ((classify_levels tmax tmin wind rain).heat_level = 2 ↔ 35 ≤ tmax ∧ tmax < 40) ∧
      ((classify_levels tmax tmin wind rain).heat_level = 1 ↔ 30 ≤ tmax ∧ tmax < 35) ∧
      ((classify_levels tmax tmin wind rain).heat_level = 0 ↔ tmax < 30)) ∧
    (((classify_levels tmax tmin wind rain).cold_level = 3 ↔ tmin ≤ -10) ∧
      ((classify_levels tmax tmin wind rain).cold_level = 2 ↔ tmin ≤ -5 ∧ -10 < tmin) ∧
      ((classify_levels tmax tmin wind rain).cold_level = 1 ↔ tmin ≤ 0 ∧ -5 < tmin) ∧
      ((classify_levels tmax tmin wind rain).cold_level = 0 ↔ 0 < tmin)) ∧
    (((classify_levels tmax tmin wind rain).wind_level = 3 ↔ 90 ≤ wind) ∧
      ((classify_levels tmax tmin wind rain).wind_level = 2 ↔ 70 ≤ wind ∧ wind < 90) ∧
      ((classify_levels tmax tmin wind rain).wind_level = 1 ↔ 50 ≤ wind ∧ wind < 70) ∧
      ((classify_levels tmax tmin wind rain).wind_level = 0 ↔ wind < 50)) ∧
    (((classify_levels tmax tmin wind rain).rain_level = 3 ↔ 60 ≤ rain) ∧
      ((classify_levels tmax tmin wind rain).rain_level = 2 ↔ 40 ≤ rain ∧ rain < 60) ∧
      ((classify_levels tmax tmin wind rain).rain_level = 1 ↔ 20 ≤ rain ∧ rain < 40) ∧
      ((classify_levels tmax tmin wind rain).rain_level = 0 ↔ rain < 20)) :=
  ⟨classify_heat_char tmax tmin wind rain, classify_cold_char tmax tmin wind rain,
    classify_wind_char tmax tmin wind rain, classify_rain_char tmax tmin wind rain⟩

/-- C7 counterexample: for the cold hazard the driving metric is `tmin`,
and increasing it from −10 to 0 (all other metrics unchanged) decreases the
cold level from 3 to 1, so "increasing the driving metric value never
decreases the resulting severity level" fails for cold. -/
theorem C7_counterexample :
    (classify_levels 0 (-10) 0 0).cold_level = 3 ∧
    (classify_levels 0 0 0 0).cold_level = 1 ∧
    ¬((classify_levels 0 (-10) 0 0).cold_level ≤ (classify_levels 0 0 0 0).cold_level) := by
  refine ⟨by decide, by decide, by decide⟩

/-- C7 amended: the heat, wind and rain levels are monotone nondecreasing
in their driving metric; the cold level is antitone in `tmin` — decreasing
`tmin` never decreases the cold level. -/
theorem C7_amended :
    (∀ t t' tmin wind rain : ℚ, t ≤ t' →
      (classify_levels t tmin wind rain).heat_level ≤
        (classify_levels t' tmin wind rain).heat_level) ∧
    (∀ tmax n n' wind rain : ℚ, n' ≤ n →
      (classify_levels tmax n wind rain).cold_level ≤
        (classify_levels tmax n' wind rain).cold_level) ∧
    (∀ tmax tmin w w' rain : ℚ, w ≤ w' →
      (classify_levels tmax tmin w rain).wind_level ≤
        (classify_levels tmax tmin w' rain).wind_level) ∧
    (∀ tmax tmin wind p p' : ℚ, p ≤ p' →
      (classify_levels tmax tmin wind p).rain_level ≤
        (classify_levels tmax tmin wind p').rain_level) := by
  refine ⟨fun t t' tmin wind rain h => ?_, fun tmax n n' wind rain h => ?_,
    fun tmax tmin w w' rain h => ?_, fun tmax tmin wind p p' h => ?_⟩ <;>
    simp only [classify_levels] <;>
    split_ifs <;>
    first | omega | linarith

/-- C7 amended, witness at concrete inputs for all four hazards. -/
theorem C7_amended_witness :
    (classify_levels 30 12 0 0).heat_level ≤ (classify_levels 36 12 0 0).heat_level ∧
    (classify_levels 20 0 0 0).cold_level ≤ (classify_levels 20 (-6) 0 0).cold_level ∧
    (classify_levels 20 12 50 0).wind_level ≤ (classify_levels 20 12 95 0).wind_level ∧
    (classify_levels 20 12 0 20).rain_level ≤ (classify_levels 20 12 0 45).rain_level :=
  ⟨C7_amended.1 30 36 12 0 0 (by norm_num),
    C7_amended.2.1 20 0 (-6) 0 0 (by norm_num),
    C7_amended.2.2.1 20 12 50 95 0 (by norm_num),
    C7_amended.2.2.2 20 12 0 20 45 (by norm_num)⟩

/-- C4: for every non-empty group of raw records sharing a
`(date, region_code)` key, the group is dropped (no `RegionDay`) exactly
when one of the four metrics has zero valid values in the group, and an
emitted `RegionDay` has tmax = max, tmin = min, wind = max and rain = sum
of the group's valid values of the respective metric. -/
theorem C4_group_aggregation (d : Nat) (code : String) (grp : List RawObservation)
    (hne : grp ≠ []) (hkey : ∀ r ∈ grp, r.date = d ∧ r.region_code = code) :
    (aggregate_group d code grp = none ↔
      _safe_floats grp (fun r => r.tmax_c) = [] ∨
      _safe_floats grp (fun r => r.tmin_c) = [] ∨
      _safe_floats grp (fun r => r.wind_max_kmh) = [] ∨
      _safe_floats grp (fun r => r.rain_mm) = []) ∧
    ∀ rd, aggregate_group d code grp = some rd →
      (rd.tmax_c ∈ _safe_floats grp (fun r => r.tmax_c) ∧
        ∀ v ∈ _safe_floats grp (fun r => r.tmax_c), v ≤ rd.tmax_c) ∧
      (rd.tmin_c ∈ _safe_floats grp (fun r => r.tmin_c) ∧
        ∀ v ∈ _safe_floats grp (fun r => r.tmin_c), rd.tmin_c ≤ v) ∧
      (rd.wind_max_kmh ∈ _safe_floats grp (fun r => r.wind_max_kmh) ∧
        ∀ v ∈ _safe_floats grp (fun r => r.wind_max_kmh), v ≤ rd.wind_max_kmh) ∧
      rd.rain_mm = (_safe_floats grp (fun r => r.rain_mm)).sum :=
  ⟨aggregate_group_none_iff d code grp, fun _ h => aggregate_group_some h⟩

/-- C4, witness: the two-city group `exGroupW` aggregates to
`exRegionDayW` with max/min/max/sum semantics. -/
theorem C4_group_aggregation_witness :
    (exRegionDayW.tmax_c ∈ _safe_floats exGroupW (fun r => r.tmax_c) ∧
      ∀ v ∈ _safe_floats exGroupW (fun r => r.tmax_c), v ≤ exRegionDayW.tmax_c) ∧
    (exRegionDayW.tmin_c ∈ _safe_floats exGroupW (fun r => r.tmin_c) ∧
      ∀ v ∈ _safe_floats exGroupW (fun r => r.tmin_c), exRegionDayW.tmin_c ≤ v) ∧
    (exRegionDayW.wind_max_kmh ∈ _safe_floats exGroupW (fun r => r.wind_max_kmh) ∧
      ∀ v ∈ _safe_floats exGroupW (fun r => r.wind_max_kmh), v ≤ exRegionDayW.wind_max_kmh) ∧
    exRegionDayW.rain_mm = (_safe_floats exGroupW (fun r => r.rain_mm)).sum :=
  (C4_group_aggregation day20240601 "R" exGroupW (by decide) (by decide)).2
    exRegionDayW (by
      norm_num [aggregate_group, _safe_floats, exGroupW, exObs, exRegionDayW,
        classify_levels, pyMax, pyMin, List.filterMap_cons, List.sum_cons,
        List.foldl_cons, List.foldl_nil])

/-- C6 counterexample: the record `exObsNoTmax` has a missing `tmax_c`, yet
its wind value 100 still drives the group's wind aggregate (the claim
predicts the whole record is excluded, which would leave wind 10): the
exclusion in `_safe_floats` is per metric value, not per record. -/
theorem C6_counterexample :
    aggregate_group day20240601 "R" exGroupNoTmax ≠
      aggregate_group day20240601 "R" [exObs day20240601 "B" 20 0 10 0] ∧
    Option.map (fun rd => rd.wind_max_kmh)
        (aggregate_group day20240601 "R" exGroupNoTmax) = some 100 ∧
    Option.map (fun rd => rd.wind_max_kmh)
        (aggregate_group day20240601 "R" [exObs day20240601 "B" 20 0 10 0]) = some 10 := by
  refine ⟨by decide, by decide, by decide⟩

/-- C6 amended: a missing / non-numeric metric value causes only that value
to be skipped for that metric's aggregate; every present-and-numeric metric
value of every record of the group still contributes to its own metric's
aggregate (bounding the max/min aggregates, entering the rain sum),
regardless of the record's other fields. -/
theorem C6_amended (d : Nat) (code : String) (grp : List RawObservation) (rd : RegionDay)
    (h : aggregate_group d code grp = some rd) :
    ∀ r ∈ grp,
      (∀ v, r.tmax_c = some v → v ≤ rd.tmax_c) ∧
      (∀ v, r.tmin_c = some v → rd.tmin_c ≤ v) ∧
      (∀ v, r.wind_max_kmh = some v → v ≤ rd.wind_max_kmh) ∧
      (∀ v, r.rain_mm = some v →
        v ∈ _safe_floats grp (fun r => r.rain_mm) ∧
        rd.rain_mm = (_safe_floats grp (fun r => r.rain_mm)).sum) := by
  intro r hr
  obtain ⟨⟨_, hta⟩, ⟨_, hti⟩, ⟨_, hw⟩, hra⟩ := aggregate_group_some h
  exact ⟨fun v hv => hta v (List.mem_filterMap.mpr ⟨r, hr, hv⟩),
    fun v hv => hti v (List.mem_filterMap.mpr ⟨r, hr, hv⟩),
    fun v hv => hw v (List.mem_filterMap.mpr ⟨r, hr, hv⟩),
    fun v hv => ⟨List.mem_filterMap.mpr ⟨r, hr, hv⟩, hra⟩⟩

/-- C5: for every non-empty summarised run, the cold event's peak entry is
named `min_tmin_c` and holds the minimum `tmin_c` of the run, while the
heat, wind and rain events hold the maximum `tmax_c`, `wind_max_kmh` and
single-day `rain_mm` respectively (rain is not summed across the run). -/
theorem C5_peak_values :
    ∀ (rows : List RegionDay) (hz : Hazard) (e : AlertEvent),
      summarise_run rows hz = some e →
      (hz = .cold → e.value_field = "min_tmin_c" ∧
        e.value ∈ rows.map (fun r => r.tmin_c) ∧
        ∀ v ∈ rows.map (fun r => r.tmin_c), e.value ≤ v) ∧
      (hz = .heat → e.value_field = "max_tmax_c" ∧
        e.value ∈ rows.map (fun r => r.tmax_c) ∧
        ∀ v ∈ rows.map (fun r => r.tmax_c), v ≤ e.value) ∧
      (hz = .wind → e.value_field = "max_wind_max_kmh" ∧
        e.value ∈ rows.map (fun r => r.wind_max_kmh) ∧
        ∀ v ∈ rows.map (fun r => r.wind_max_kmh), v ≤ e.value) ∧
      (hz = .rain → e.value_field = "max_rain_mm" ∧
        e.value ∈ rows.map (fun r => r.rain_mm) ∧
        ∀ v ∈ rows.map (fun r => r.rain_mm), v ≤ e.value) := by
  intro rows hz e hs
  rcases summarise_run_eq hs with ⟨first, rest, rfl, he2⟩
  subst he2
  cases hz
  case cold =>
    refine ⟨fun _ => ⟨rfl, ?_, ?_⟩, fun h => Hazard.noConfusion h,
      fun h => Hazard.noConfusion h, fun h => Hazard.noConfusion h⟩
    · rw [List.map_cons]
      exact pyMin_mem_cons first.tmin_c (rest.map fun r => r.tmin_c)
    · intro v hv
      rw [List.map_cons] at hv
      exact pyMin_lb hv
  case heat =>
    refine ⟨fun h => Hazard.noConfusion h, fun _ => ⟨rfl, ?_, ?_⟩,
      fun h => Hazard.noConfusion h, fun h => Hazard.noConfusion h⟩
    · rw [List.map_cons]
      exact pyMax_mem_cons first.tmax_c (rest.map fun r => r.tmax_c)
    · intro v hv
      rw [List.map_cons] at hv
      exact pyMax_ub hv
  case wind =>
    refine ⟨fun h => Hazard.noConfusion h, fun h => Hazard.noConfusion h,
      fun _ => ⟨rfl, ?_, ?_⟩, fun h => Hazard.noConfusion h⟩
    · rw [List.map_cons]
      exact pyMax_mem_cons first.wind_max_kmh (rest.map fun r => r.wind_max_kmh)
    · intro v hv
      rw [List.map_cons] at hv
      exact pyMax_ub hv
  case rain =>
    refine ⟨fun h => Hazard.noConfusion h, fun h => Hazard.noConfusion h,
      fun h => Hazard.noConfusion h, fun _ => ⟨rfl, ?_, ?_⟩⟩
    · rw [List.map_cons]
      exact pyMax_mem_cons first.rain_mm (rest.map fun r => r.rain_mm)
    · intro v hv
      rw [List.map_cons] at hv
      exact pyMax_ub hv

/-- C5, witness: the cold run with `tmin_c` values `[-6, -12, -8]` reports
peak `min_tmin_c = -12`. -/
theorem C5_peak_values_witness :
    exColdEvent.value_field = "min_tmin_c" ∧
    exColdEvent.value ∈ exColdRun.map (fun r => r.tmin_c) ∧
    ∀ v ∈ exColdRun.map (fun r => r.tmin_c), exColdEvent.value ≤ v :=
  (C5_peak_values exColdRun .cold exColdEvent (by decide)).1 rfl

/-- C8 counterexample: in daily mode with today = 1000, a forecast row
dated tomorrow (1001) is retained, so the store is not confined to a
`HISTORY_DAYS`-day window ending yesterday (999). -/
theorem C8_counterexample :
    ¬ (∀ r ∈ run_daily_trim [] [exObs 1001 "A" 1 1 1 1] 1000,
        1000 - HISTORY_DAYS ≤ r.date ∧ r.date ≤ 1000 - 1) := by
  decide

/-- C8 amended: retention enforces only a lower date cutoff.  After a
backfill refresh a row is retained iff it is in the combined list and
dated on or after `(today − 1) − (HISTORY_DAYS − 1)`; after a daily
refresh a row is retained iff it is an existing row dated before today or
a fetched forecast row dated today or tomorrow, and dated on or after
`today − (HISTORY_DAYS − 1)` — so the daily window ends tomorrow, not
yesterday, and neither mode trims rows dated after its window. -/
theorem C8_amended (existing fetched : List RawObservation) (today : Nat) :
    (∀ r : RawObservation,
      r ∈ run_backfill_trim existing fetched today ↔
        r ∈ existing ++ fetched ∧ (today - 1) - (HISTORY_DAYS - 1) ≤ r.date) ∧
    (∀ r : RawObservation,
      r ∈ run_daily_trim existing fetched today ↔
        ((r ∈ existing ∧ r.date < today) ∨
          (r ∈ fetched ∧ (r.date = today ∨ r.date = today + 1))) ∧
        today - (HISTORY_DAYS - 1) ≤ r.date) := by
  constructor
  · intro r
    simp only [run_backfill_trim, List.mem_filter, decide_eq_true_eq]
  · intro r
    simp only [run_daily_trim, List.mem_filter, List.mem_append, decide_eq_true_eq,
      Bool.or_eq_true]

/-- C6 amended, witness: in `exGroupNoTmax` the tmax-less record's wind
value 100 bounds the group's wind aggregate. -/
theorem C6_amended_witness : (100 : ℚ) ≤ exRegionDayNoTmax.wind_max_kmh :=
  ((C6_amended day20240601 "R" exGroupNoTmax exRegionDayNoTmax (by
      norm_num [aggregate_group, _safe_floats, exGroupNoTmax, exObs, exObsNoTmax,
        exRegionDayNoTmax, classify_levels, pyMax, pyMin, List.filterMap_cons,
        List.sum_cons, List.foldl_cons, List.foldl_nil])
    exObsNoTmax (by decide)).2.2.1 100 rfl)

unseal List.merge List.mergeSort in
/-- C1: on the single-region heat stream 2024-06-01..06 with levels
`[1, 2, 0, 1, 1, 1]` (min level 1, min duration 2) the detector emits
exactly the two events 06-01..02 (2 days, max level 2) and 06-04..06
(3 days, max level 1); and on every input, every emitted heat event spans
at least 2 days — no single-day heat event is ever emitted. -/
theorem C1_run_extraction :
    detect_events_for_country exRowsRun .heat (HAZARDS .heat) = [exEventA, exEventB] ∧
    ∀ (rows : List RegionDay), ∀ e ∈ detect_events_for_country rows .heat (HAZARDS .heat),
      2 ≤ e.n_days := by
  constructor
  · decide
  · intro rows e he
    rcases detect_sound rows .heat (HAZARDS .heat) e he with ⟨rs, _, _, hl, _, hs⟩
    rcases summarise_run_eq hs with ⟨first, rest, hrs, he2⟩
    subst hrs
    subst he2
    simpa [HAZARDS] using hl

unseal List.merge List.mergeSort in
/-- C1, witness: the first emitted event of the worked stream spans
2 days. -/
theorem C1_run_extraction_witness : 2 ≤ exEventA.n_days :=
  C1_run_extraction.2 exRowsRun exEventA (by decide)

unseal List.merge List.mergeSort in
/-- C2: with 2024-06-03 absent from the input entirely the run still splits
at 06-02/06-04 into the same two events; and in general every calendar day
inside an emitted event's span is the date of some input record of
qualifying level — records whose dates are not one day apart never end up
in the same run. -/
theorem C2_gap_breaks_runs :
    detect_events_for_country exRowsGap .heat (HAZARDS .heat) = [exEventA, exEventB] ∧
    ∀ (rows : List RegionDay) (hz : Hazard) (cfg : HazardCfg),
      ∀ e ∈ detect_events_for_country rows hz cfg,
        ∀ d : Nat, e.start_date ≤ d → d ≤ e.end_date →
          ∃ r ∈ rows, r.date = d ∧ cfg.min_level ≤ hazardLevel hz r := by
  constructor
  · decide
  · intro rows hz cfg e he d h1 h2
    rcases detect_sound rows hz cfg e he with ⟨rs, hc, hq, _, hm, hs⟩
    rcases summarise_run_eq hs with ⟨first, rest, hrs, he2⟩
    subst hrs
    subst he2
    have hend := contig_getLast_date first rest hc
    dsimp only at h1 h2
    rw [hend] at h2
    rcases contig_covers first rest hc d h1 h2 with ⟨r, hr, hrd⟩
    exact ⟨r, hm r hr, hrd, hq r hr⟩

unseal List.merge List.mergeSort in
/-- C2, witness: in the gapped stream, day 2024-06-05 inside the second
event's span is covered by a qualifying input record. -/
theorem C2_gap_breaks_runs_witness :
    ∃ r ∈ exRowsGap, r.date = day20240601 + 4 ∧
      (HAZARDS .heat).min_level ≤ hazardLevel .heat r :=
  C2_gap_breaks_runs.2 exRowsGap .heat (HAZARDS .heat) exEventB (by decide)
    (day20240601 + 4) (by decide) (by decide)

/-- C9: every emitted event satisfies its hazard's configuration: n_days is
the length of the underlying run and at least the minimum duration,
max_level is at least the minimum level, the start is not after the end,
and n_days equals the number of calendar days from start to end
inclusive. -/
theorem C9_event_invariants :
    ∀ (rows : List RegionDay) (hz : Hazard),
      ∀ e ∈ detect_events_for_country rows hz (HAZARDS hz),
        (HAZARDS hz).min_duration ≤ e.n_days ∧
        (HAZARDS hz).min_level ≤ e.max_level ∧
        e.start_date ≤ e.end_date ∧
        e.end_date + 1 = e.start_date + e.n_days ∧
        ∃ rs, rs ≠ [] ∧ rs.length = e.n_days ∧ (∀ r ∈ rs, r ∈ rows) ∧
          summarise_run rs hz = some e := by
  intro rows hz e he
  rcases detect_sound rows hz (HAZARDS hz) e he with ⟨rs, hc, hq, hl, hm, hs⟩
  rcases summarise_run_eq hs with ⟨first, rest, hrs, he2⟩
  subst hrs
  have hend := contig_getLast_date first rest hc
  subst he2
  dsimp only
  refine ⟨by simpa using hl, ?_, ?_, ?_,
    first :: rest, List.cons_ne_nil first rest, by simp, hm, hs⟩
  · exact le_trans (hq first (List.mem_cons_self first rest))
      (le_pyMax_self (hazardLevel hz first) (rest.map (hazardLevel hz)))
  · rw [hend]
    omega
  · rw [hend]
    omega

unseal List.merge List.mergeSort in
/-- C9, witness: the invariants at the first event of the worked stream. -/
theorem C9_event_invariants_witness :
    (HAZARDS .heat).min_duration ≤ exEventA.n_days ∧
    (HAZARDS .heat).min_level ≤ exEventA.max_level ∧
    exEventA.start_date ≤ exEventA.end_date :=
  ⟨(C9_event_invariants exRowsRun .heat exEventA (by decide)).1,
   (C9_event_invariants exRowsRun .heat exEventA (by decide)).2.1,
   (C9_event_invariants exRowsRun .heat exEventA (by decide)).2.2.1⟩

/-- C10: when the input records have pairwise distinct dates, the events of
one (region, hazard) stream come out with strictly increasing,
non-overlapping `[start_date, end_date]` spans — sorted by start date,
pairwise disjoint, and no calendar day lies in two events. -/
theorem C10_events_disjoint :
    ∀ (rows : List RegionDay) (hz : Hazard) (cfg : HazardCfg),
      rows.Pairwise (fun a b => a.date ≠ b.date) →
      (detect_events_for_country rows hz cfg).Pairwise
          (fun a b => a.end_date < b.start_date) ∧
      ∀ e ∈ detect_events_for_country rows hz cfg, e.start_date ≤ e.end_date := by
  intro rows hz cfg hnd
  have hp : (([] : List RegionDay) ++ rows.mergeSort (fun a b => a.date ≤ b.date)).Pairwise
      (fun a b => a.date < b.date) := by
    rw [List.nil_append]
    exact sorted_rows_pairwise_lt hnd
  have h := detectLoop_pairwise hz cfg.min_level cfg.min_duration
      (rows.mergeSort (fun a b => a.date ≤ b.date)) [] none hp
  simp only [detect_events_for_country]
  exact ⟨h.1, fun e he => (h.2 e he).2.2⟩

unseal List.merge List.mergeSort in
/-- C10, witness: the two events of the worked stream are disjoint and in
order. -/
theorem C10_events_disjoint_witness :
    (detect_events_for_country exRowsRun .heat (HAZARDS .heat)).Pairwise
      (fun a b => a.end_date < b.start_date) :=
  (C10_events_disjoint exRowsRun .heat (HAZARDS .heat) (by decide)).1

end WeatherAlert
